import Mathlib

/-!
Verification of the inventory allocation and order-lifecycle engine of
`update_orders2.py` (functions `run_pick_allocation`, `archive_old_orders`,
`remove_done_picks_from_localstock`, `main`).

The database tables are embedded as Lean lists of records:
`localstock` rows become `StockUnit`, `orderstatus` rows become `OrderLine`.
The read-only tables consulted by the fallback tiers (`amzfeed`, `ukdstock`,
`skumap`, `skusummary`) are collected in `Env`.  SQL `NULL` in a nullable
column is `Option.none`; `COALESCE(x, 0)` is `coalesce0`.  The successive
draws of `random.randint(100, 999)` are modelled as an ambient list `rands`
consumed from the front (`headD` supplies an arbitrary stand-in draw when the
modelled sequence is exhausted; every concrete theorem below supplies enough
draws).  The wall clock `get_current_datetime()` is passed in as `now`.
-/

namespace UpdateOrders2

/-- One row of the `localstock` table (the Stock Ledger).  Fields are the
columns read or written by `run_pick_allocation` and the cleanup; `deleted`
is nullable (`NULL` on rows inserted by a split, which list no `deleted`
column). -/
structure StockUnit where
  id : Nat
  code : String
  qty : Int
  location : String
  ordernum : String
  groupid : String
  supplier : String
  brand : String
  allocated : String
  deleted : Option Int
deriving DecidableEq, Repr

/-- One row of the `orderstatus` table (the Order Ledger); the four
allocation counters `amz`, `localstock`, `ukd`, `othersupplier` are nullable
integers, `batch` is compared after an integer cast, `orderdate` is the
fulfillment timestamp string. -/
structure OrderLine where
  ordernum : String
  shopifysku : String
  qty : Option Int
  ordertype : Int
  batch : Int
  amz : Option Int
  localstock : Option Int
  ukd : Option Int
  othersupplier : Option Int
  orderdate : String
  channel : String
deriving DecidableEq, Repr

/-- The read-only tables consulted by the fallback tiers:
`amzfeed` rows as `(code, amzlive)`, `ukdstock` rows as `(code, stock)`,
`skumap` rows as `(code, groupid)`, `skusummary` rows as
`(groupid, supplier)`. -/
structure Env where
  amzfeed : List (String × Int)
  ukdstock : List (String × Int)
  skumap : List (String × String)
  skusummary : List (String × String)
deriving Repr

/-- SQL `COALESCE(x, 0)` on a nullable integer column. -/
def coalesce0 (o : Option Int) : Int := o.getD 0

/-- The `WHERE` clause of the stock-availability query:
`code = sku AND ordernum = '#FREE' AND (deleted = 0 OR deleted IS NULL)
AND allocated = 'unallocated'`. -/
def isFreeRow (sku : String) (u : StockUnit) : Bool :=
  u.code == sku && u.ordernum == "#FREE" &&
    (u.deleted == some 0 || u.deleted == none) && u.allocated == "unallocated"

/-- Lexicographic comparison of character lists by code point (the ordering
SQL applies to text in `ORDER BY`). -/
def charListLt : List Char → List Char → Bool
  | _, [] => false
  | [], _ :: _ => true
  | c :: cs, d :: ds =>
    if c.toNat < d.toNat then true
    else if d.toNat < c.toNat then false
    else charListLt cs ds

/-- Lexicographic string comparison by code point. -/
def strLt (a b : String) : Bool := charListLt a.toList b.toList

/-- The `ORDER BY location, id` comparison of the availability query. -/
def unitLe (a b : StockUnit) : Bool :=
  strLt a.location b.location ||
    (a.location == b.location && decide (a.id ≤ b.id))

/-- Insertion into a list sorted by `unitLe`. -/
def insertSorted (u : StockUnit) : List StockUnit → List StockUnit
  | [] => [u]
  | v :: vs => if unitLe u v then u :: v :: vs else v :: insertSorted u vs

/-- Sorting by `unitLe` (models `ORDER BY location, id`). -/
def sortUnits : List StockUnit → List StockUnit
  | [] => []
  | u :: us => insertSorted u (sortUnits us)

/-- The availability query of `run_pick_allocation`:
`SELECT … FROM localstock WHERE code = sku AND ordernum = '#FREE' AND
(deleted = 0 OR deleted IS NULL) AND allocated = 'unallocated'
ORDER BY location, id`. -/
def availablePicks (sku : String) (ls : List StockUnit) : List StockUnit :=
  sortUnits (ls.filter (isFreeRow sku))

/-- The `SELECT COUNT(*) FROM localstock WHERE code = sku AND
ordernum = order AND deleted = 0` query (note: `deleted = 0` only, rows with
`deleted IS NULL` are not counted here). -/
def alreadyAllocatedCount (ls : List StockUnit) (sku order : String) : Nat :=
  (ls.filter (fun u =>
    u.code == sku && u.ordernum == order && u.deleted == some 0)).length

/-- `''.join(filter(str.isdigit, order_name))`. -/
def orderDigits (order : String) : String :=
  String.mk (order.toList.filter Char.isDigit)

/-- The base-10 value of a digit sequence: what Python's `int(…)` returns on
a string of decimal digits. -/
def natOfDigits (cs : List Char) : Nat :=
  cs.foldl (fun a c => 10 * a + (c.toNat - 48)) 0

/-- `int(''.join(filter(str.isdigit, order_name)) + str(suffix))`: the id of
the remainder row minted by a split is the digits of the order name
concatenated with the decimal rendering of the random suffix, read back as
an integer. -/
def fallbackId (order : String) (suffix : Nat) : Nat :=
  natOfDigits ((orderDigits order).toList ++ (toString suffix).toList)

/-- `UPDATE localstock SET ordernum = order WHERE id = pid` (the whole-pick
assignment of a quantity-1 row). -/
def assignPick (order : String) (pid : Nat) (ls : List StockUnit) :
    List StockUnit :=
  ls.map (fun u => if u.id == pid then { u with ordernum := order } else u)

/-- `UPDATE localstock SET qty = 1, ordernum = order WHERE id = pid` (the
shrink half of a split). -/
def splitPick (order : String) (pid : Nat) (ls : List StockUnit) :
    List StockUnit :=
  ls.map (fun u =>
    if u.id == pid then { u with qty := 1, ordernum := order } else u)

/-- The remainder row inserted by a split: fresh `fallbackId`, same
sku/location/groupid/supplier/brand, remainder quantity, `'#FREE'`,
`'unallocated'`; the `INSERT` lists no `deleted` column, so `deleted` is
`NULL`. -/
def remainderRow (order sku : String) (u : StockUnit) (suffix : Nat) :
    StockUnit :=
  { id := fallbackId order suffix, code := sku, qty := u.qty - 1,
    location := u.location, ordernum := "#FREE", groupid := u.groupid,
    supplier := u.supplier, brand := u.brand, allocated := "unallocated",
    deleted := none }

/-- The `while picks_allocated < picks_needed` loop of
`run_pick_allocation`: fuel is the number of picks still needed; each
iteration re-runs the availability query, takes the first row, splits it if
its quantity exceeds 1 (consuming one random draw for the remainder id) or
assigns it whole otherwise, and counts one allocated pick; the loop stops
early when no row is available.  Returns the stock list, the number of picks
allocated, and the remaining random draws. -/
def allocLoop (order sku : String) :
    Nat → List StockUnit → List Nat → List StockUnit × Nat × List Nat
  | 0, ls, rands => (ls, 0, rands)
  | n + 1, ls, rands =>
    match availablePicks sku ls with
    | [] => (ls, 0, rands)
    | u :: _ =>
      if u.qty > 1 then
        let ls1 := splitPick order u.id ls ++ [remainderRow order sku u (rands.headD 100)]
        let r := allocLoop order sku n ls1 rands.tail
        (r.1, r.2.1 + 1, r.2.2)
      else
        let r := allocLoop order sku n (assignPick order u.id ls) rands
        (r.1, r.2.1 + 1, r.2.2)

/-- `SELECT SUM(amzlive) FROM amzfeed WHERE code = sku AND amzlive > 0`,
with `NULL` (empty sum) read as 0. -/
def amzAvail (env : Env) (sku : String) : Int :=
  ((env.amzfeed.filter (fun p => p.1 == sku && decide (p.2 > 0))).map
    (fun p => p.2)).sum

/-- `SELECT SUM(stock) FROM ukdstock WHERE code = sku AND stock > 0`,
with `NULL` (empty sum) read as 0. -/
def ukdAvail (env : Env) (sku : String) : Int :=
  ((env.ukdstock.filter (fun p => p.1 == sku && decide (p.2 > 0))).map
    (fun p => p.2)).sum

/-- SQL `TRIM`: strip leading and trailing spaces. -/
def trimSpaces (s : String) : String :=
  String.mk
    (((s.toList.dropWhile (fun c => c == ' ')).reverse.dropWhile
      (fun c => c == ' ')).reverse)

/-- ASCII lower-casing of one character (`str.lower()` on the ASCII supplier
codes this system stores). -/
def lowerChar (c : Char) : Char :=
  if 65 ≤ c.toNat ∧ c.toNat ≤ 90 then Char.ofNat (c.toNat + 32) else c

/-- `supplier.lower()`. -/
def lowerStr (s : String) : String := String.mk (s.toList.map lowerChar)

/-- The supplier lookup: `groupid` from `skumap` by code (`LIMIT 1`), then
the first `skusummary` supplier for that groupid that is non-`NULL` and
non-blank after `TRIM`. -/
def supplierOf (env : Env) (sku : String) : Option String :=
  match env.skumap.find? (fun p => p.1 == sku) with
  | none => none
  | some g =>
    (env.skusummary.find? (fun p => p.1 == g.2 && trimSpaces p.2 != "")).map
      (fun p => p.2)

/-- `UPDATE orderstatus SET … WHERE ordernum = key.1 AND shopifysku = key.2`:
apply `f` to every row whose key matches. -/
def updateLine (key : String × String) (f : OrderLine → OrderLine)
    (os : List OrderLine) : List OrderLine :=
  os.map (fun l =>
    if l.ordernum == key.1 && l.shopifysku == key.2 then f l else l)

/-- The engine's running state: the `localstock` table, the `orderstatus`
table, and the remaining random draws. -/
abbrev AllocState := List StockUnit × List OrderLine × List Nat

/-- The body of the `for order_name, shopifysku, order_qty in orders:` loop
of `run_pick_allocation`, translated branch for branch:
invalid quantity → skip; already fully allocated → refresh
`orderdate`/`localstock` only; no available local row → marketplace (`amz`)
tier, else supplier lookup and the `ukd`/`othersupplier` markings; otherwise
the local allocation loop followed by the `orderdate`/`localstock` update
when at least one pick was allocated. -/
def processOrder (env : Env) (now : String) (st : AllocState)
    (o : String × String × Option Int) : AllocState :=
  let ls := st.1
  let os := st.2.1
  let rands := st.2.2
  let order := o.1
  let sku := o.2.1
  match o.2.2 with
  | none => st
  | some q =>
    if q ≤ 0 then st
    else
      let already := alreadyAllocatedCount ls sku order
      if (already : Int) ≥ q then
        (ls, updateLine (order, sku)
          (fun l => { l with orderdate := now, localstock := some (already : Int) }) os,
          rands)
      else
        let needed : Int := q - (already : Int)
        if (availablePicks sku ls).isEmpty then
          let amzA := amzAvail env sku
          if amzA > 0 then
            (ls, updateLine (order, sku)
              (fun l => { l with amz := some (min needed amzA) }) os, rands)
          else
            match supplierOf env sku with
            | some sup =>
              if lowerStr sup == "ukd" then
                let ukdA := ukdAvail env sku
                if ukdA > 0 then
                  (ls, updateLine (order, sku)
                    (fun l => { l with ukd := some (min needed ukdA) }) os, rands)
                else
                  (ls, updateLine (order, sku)
                    (fun l => { l with ukd := some needed }) os, rands)
              else
                (ls, updateLine (order, sku)
                  (fun l => { l with othersupplier := some needed }) os, rands)
            | none =>
              (ls, updateLine (order, sku)
                (fun l => { l with othersupplier := some needed }) os, rands)
        else
          let r := allocLoop order sku needed.toNat ls rands
          if 0 < r.2.1 then
            (r.1, updateLine (order, sku)
              (fun l =>
                { l with orderdate := now
                         localstock := some ((already : Int) + (r.2.1 : Int)) }) os,
              r.2.2)
          else
            (r.1, os, r.2.2)

/-- The selection `WHERE` clause of `run_pick_allocation`'s initial query:
`ordertype NOT IN (3, 5) AND batch::int != -1 AND COALESCE(amz, 0) = 0 AND
COALESCE(localstock, 0) = 0 AND COALESCE(ukd, 0) = 0 AND
COALESCE(othersupplier, 0) = 0`. -/
def selPred (l : OrderLine) : Bool :=
  l.ordertype != 3 && l.ordertype != 5 && l.batch != -1 &&
    coalesce0 l.amz == 0 && coalesce0 l.localstock == 0 &&
    coalesce0 l.ukd == 0 && coalesce0 l.othersupplier == 0

/-- `SELECT ordernum, shopifysku, qty FROM orderstatus WHERE …`: the
snapshot of order lines the engine iterates over (taken once, before any
mutation). -/
def selectOrders (os : List OrderLine) : List (String × String × Option Int) :=
  (os.filter selPred).map (fun l => (l.ordernum, l.shopifysku, l.qty))

/-- `run_pick_allocation(cursor)`: select the all-counters-zero lines once,
then process each in turn. -/
def run_pick_allocation (env : Env) (now : String) (rands : List Nat)
    (ls : List StockUnit) (os : List OrderLine) : AllocState :=
  (selectOrders os).foldl (processOrder env now) (ls, os, rands)

/-- The ledger result of one engine run (the trailing unused random draws
dropped). -/
def runLedger (env : Env) (now : String) (rands : List Nat)
    (ls : List StockUnit) (os : List OrderLine) :
    List StockUnit × List OrderLine :=
  ((run_pick_allocation env now rands ls os).1,
   (run_pick_allocation env now rands ls os).2.1)

/-- `ordernum LIKE 'BC%'`: the feed-order naming convention. -/
def startsWithBC (s : String) : Bool :=
  match s.toList with
  | 'B' :: 'C' :: _ => true
  | _ => false

/-- `remove_done_picks_from_localstock(cursor)`:
`DELETE FROM localstock WHERE ordernum IS NOT NULL AND ordernum LIKE 'BC%'
AND ordernum NOT IN (SELECT DISTINCT ordernum FROM orderstatus)` (ordernum is
modelled as a non-null string). -/
def remove_done_picks_from_localstock (os : List OrderLine)
    (ls : List StockUnit) : List StockUnit :=
  ls.filter (fun u =>
    !(startsWithBC u.ordernum &&
      !(os.any (fun l => l.ordernum == u.ordernum))))

/-- One iteration of the archive loop of `archive_old_orders`: copy every
`orderstatus` row with the given key into `orderstatus_archive`, then delete
those rows from `orderstatus`. -/
def archStep (st : List OrderLine × List OrderLine) (key : String × String) :
    List OrderLine × List OrderLine :=
  (st.1.filter (fun l => !(l.ordernum == key.1 && l.shopifysku == key.2)),
   st.2 ++ st.1.filter (fun l => l.ordernum == key.1 && l.shopifysku == key.2))

/-- The `SELECT ordernum, shopifysku FROM orderstatus WHERE channel =
'SHOPIFY'` snapshot taken by `archive_old_orders`. -/
def shopifyKeys (os : List OrderLine) : List (String × String) :=
  (os.filter (fun l => l.channel == "SHOPIFY")).map
    (fun l => (l.ordernum, l.shopifysku))

/-- `orders_to_archive`: the ledger's feed-origin keys that are not in the
current Shopify pull. -/
def keysToArchive (current : List (String × String)) (os : List OrderLine) :
    List (String × String) :=
  (shopifyKeys os).filter (fun k => !(current.contains k))

/-- `archive_old_orders(cursor, current_shopify_orders)`: list the
`channel = 'SHOPIFY'` keys of `orderstatus`, keep those not in the current
feed pull, archive each (copy then delete), and — only when at least one key
was archived — run the stale-pick cleanup against the post-archive ledger.
Returns `(orderstatus, orderstatus_archive, localstock)`. -/
def archive_old_orders (current : List (String × String))
    (os archive : List OrderLine) (ls : List StockUnit) :
    List OrderLine × List OrderLine × List StockUnit :=
  if (keysToArchive current os).isEmpty then (os, archive, ls)
  else
    let p := (keysToArchive current os).foldl archStep (os, archive)
    (p.1, p.2, remove_done_picks_from_localstock p.1 ls)

/-- Failure model for one order line, after the error-handling structure of
`main`: every `cursor.execute` raises into `main`'s single `try`, whose
handler rolls back the whole connection.  `fails` says whether the
order-line ledger write for a given `(ordernum, shopifysku)` key fails; a
skipped line (invalid quantity) performs no such write. -/
def processOrderExc (fails : String × String → Bool) (env : Env)
    (now : String) (st : AllocState) (o : String × String × Option Int) :
    Except Unit AllocState :=
  match o.2.2 with
  | none => .ok st
  | some q =>
    if q ≤ 0 then .ok st
    else if fails (o.1, o.2.1) then .error ()
    else .ok (processOrder env now st o)

/-- `run_pick_allocation` under the failure model: the first raising write
propagates out of the loop. -/
def run_pick_allocation_exc (fails : String × String → Bool) (env : Env)
    (now : String) (rands : List Nat) (ls : List StockUnit)
    (os : List OrderLine) : Except Unit AllocState :=
  (selectOrders os).foldlM (processOrderExc fails env now) (ls, os, rands)

/-- `main()` in `--picks` mode: one transaction around the whole run;
`conn.commit()` on success, `conn.rollback()` (every statement of the run
undone) when any write raised. -/
def mainPicksCommit (fails : String × String → Bool) (env : Env)
    (now : String) (rands : List Nat) (ls : List StockUnit)
    (os : List OrderLine) : AllocState :=
  match run_pick_allocation_exc fails env now rands ls os with
  | .ok st => st
  | .error _ => (ls, os, rands)

/-- Ids of the stock rows, in table order. -/
def stockIds (ls : List StockUnit) : List Nat := ls.map (fun u => u.id)

/-- A stock row counts as non-deleted when `deleted` is 0 or `NULL` (the
condition the availability query and the spec's conservation statement both
use). -/
def nonDeleted (u : StockUnit) : Bool :=
  u.deleted == some 0 || u.deleted == none

/-- Total quantity held by non-deleted stock rows of one sku. -/
def totalQty (sku : String) (ls : List StockUnit) : Int :=
  ((ls.filter (fun u => u.code == sku && nonDeleted u)).map
    (fun u => u.qty)).sum

/-- The quantity a single stock row contributes to `totalQty sku`. -/
def contrib (sku : String) (u : StockUnit) : Int :=
  if u.code == sku && nonDeleted u then u.qty else 0

/-- The `(ordernum, shopifysku)` key of an order line. -/
def lineKey (l : OrderLine) : String × String := (l.ordernum, l.shopifysku)

/-- The three fallback counters of a line, as one observable. -/
def fallbackView (l : OrderLine) : Option Int × Option Int × Option Int :=
  (l.amz, l.ukd, l.othersupplier)

/-- All four allocation counters of a line are 0 or `NULL`. -/
def allCountersZero (l : OrderLine) : Bool :=
  coalesce0 l.amz == 0 && coalesce0 l.localstock == 0 &&
    coalesce0 l.ukd == 0 && coalesce0 l.othersupplier == 0

/-- A sequence of engine runs, each with its own environment, clock and
random draws, acting on the two ledgers. -/
def runSeq (rs : List (Env × String × List Nat))
    (p : List StockUnit × List OrderLine) : List StockUnit × List OrderLine :=
  rs.foldl (fun p r => runLedger r.1 r.2.1 r.2.2 p.1 p.2) p

/-! ### Concrete scenarios used by the verification -/

/-- A stock row with fixed product-family fields, for concrete scenarios. -/
def mkUnit (id : Nat) (code : String) (qty : Int) (loc : String)
    (onum : String) (del : Option Int) : StockUnit :=
  { id := id, code := code, qty := qty, location := loc, ordernum := onum,
    groupid := "G1", supplier := "S1", brand := "B1",
    allocated := "unallocated", deleted := del }

/-- A fresh feed order line (all counters zero or `NULL`, ordertype 1,
batch 0), for concrete scenarios. -/
def mkLine (onum sku : String) (q : Option Int) : OrderLine :=
  { ordernum := onum, shopifysku := sku, qty := q, ordertype := 1, batch := 0,
    amz := none, localstock := some 0, ukd := some 0, othersupplier := none,
    orderdate := "", channel := "SHOPIFY" }

/-- No fallback stock anywhere. -/
def envEmpty : Env :=
  { amzfeed := [], ukdstock := [], skumap := [], skusummary := [] }

/-- Marketplace holds 5 of sku X; no supplier data. -/
def envAmzX : Env :=
  { amzfeed := [("X", 5)], ukdstock := [], skumap := [], skusummary := [] }

/-- Example-B environment: marketplace aggregate 1 for sku Y, designated
supplier UKD with 5 in stock. -/
def envB : Env :=
  { amzfeed := [("Y", 1)], ukdstock := [("Y", 5)],
    skumap := [("Y", "GY")], skusummary := [("GY", "UKD")] }

/-- Collision scenario: order BC500 needs two of sku X from a qty-3 unit;
an unrelated sku-Z row already carries id 500123 = `fallbackId "BC500" 123`,
the very id the first split mints when the random draw is 123. -/
def lsCollision : List StockUnit :=
  [mkUnit 10 "X" 3 "A" "#FREE" (some 0),
   mkUnit 500123 "Z" 7 "B" "#FREE" (some 0)]

/-- The one order line of the collision scenario. -/
def osCollision : List OrderLine := [mkLine "BC500" "X" (some 2)]

/-- Example A stock: `{id=1, qty=2, loc=A}` and `{id=2, qty=5, loc=B}`,
both free. -/
def lsA : List StockUnit :=
  [mkUnit 1 "X" 2 "A" "#FREE" (some 0), mkUnit 2 "X" 5 "B" "#FREE" (some 0)]

/-- Example A order: O1 needs 3 of sku X. -/
def osA : List OrderLine := [mkLine "O1" "X" (some 3)]

/-- Partial-local scenario: a single qty-1 free unit. -/
def lsPartial : List StockUnit := [mkUnit 1 "X" 1 "A" "#FREE" (some 0)]

/-- Partial-local scenario: the order needs two of sku X. -/
def osPartial : List OrderLine := [mkLine "BC1" "X" (some 2)]

/-- A single line needing one of sku X with no local stock. -/
def osAmzOnly : List OrderLine := [mkLine "BC1" "X" (some 1)]

/-- Two independent order lines, neither satisfiable locally. -/
def osTwoLines : List OrderLine :=
  [mkLine "BC1" "X" (some 1), mkLine "BC2" "Y" (some 1)]

/-- Failure oracle: the order-line ledger write for key (BC1, X) raises. -/
def failsBC1 : String × String → Bool :=
  fun k => k.1 == "BC1" && k.2 == "X"

/-- A row already committed to order BC9 next to free stock for order BC7. -/
def lsWitness : List StockUnit :=
  [mkUnit 5 "X" 1 "A" "BC9" (some 0), mkUnit 1 "X" 2 "A" "#FREE" (some 0)]

/-- The order line of the committed-row scenario. -/
def osWitness : List OrderLine := [mkLine "BC7" "X" (some 1)]

/-- Archival scenario ledger: line BC1/X is still in the pull, line BC9/Y
has vanished. -/
def osArch : List OrderLine :=
  [mkLine "BC1" "X" (some 1), mkLine "BC9" "Y" (some 1)]

/-- Archival scenario stock: picks committed to BC9 and BC1. -/
def lsArch : List StockUnit :=
  [mkUnit 1 "Y" 1 "A" "BC9" (some 0), mkUnit 2 "X" 1 "A" "BC1" (some 0)]

/-- The current feed pull of the archival scenario: only BC1/X. -/
def curArch : List (String × String) := [("BC1", "X")]

/-! ### Basic lemmas about the availability query -/

theorem mem_insertSorted {u v : StockUnit} {l : List StockUnit} :
    v ∈ insertSorted u l ↔ v = u ∨ v ∈ l := by
  induction l with
  | nil => simp [insertSorted]
  | cons w ws ih =>
    simp only [insertSorted]
    by_cases h : unitLe u w = true
    · rw [if_pos h]
      simp only [List.mem_cons]
    · rw [if_neg h]
      simp only [List.mem_cons, ih]
      tauto

theorem mem_sortUnits {v : StockUnit} {l : List StockUnit} :
    v ∈ sortUnits l ↔ v ∈ l := by
  induction l with
  | nil => simp [sortUnits]
  | cons w ws ih => simp [sortUnits, mem_insertSorted, ih]

theorem isFreeRow_spec {sku : String} {u : StockUnit}
    (h : isFreeRow sku u = true) :
    u.code = sku ∧ u.ordernum = "#FREE" ∧ nonDeleted u = true ∧
      u.allocated = "unallocated" := by
  simp only [isFreeRow, Bool.and_eq_true, beq_iff_eq, Bool.or_eq_true,
    nonDeleted] at h ⊢
  tauto

theorem availablePicks_head {sku : String} {ls : List StockUnit}
    {u : StockUnit} {rest : List StockUnit}
    (h : availablePicks sku ls = u :: rest) :
    u ∈ ls ∧ isFreeRow sku u = true := by
  have hmem : u ∈ availablePicks sku ls := by
    rw [h]; exact List.mem_cons_self u rest
  rw [availablePicks, mem_sortUnits, List.mem_filter] at hmem
  exact hmem

theorem sortUnits_eq_nil {l : List StockUnit} :
    sortUnits l = [] ↔ l = [] := by
  cases l with
  | nil => simp [sortUnits]
  | cons w ws =>
    simp only [sortUnits]
    constructor
    · intro h
      have : w ∈ insertSorted w (sortUnits ws) := mem_insertSorted.mpr (Or.inl rfl)
      rw [h] at this
      exact absurd this (List.not_mem_nil w)
    · intro h
      exact absurd h (List.cons_ne_nil w ws)

/-! ### Ids of stock rows through the allocation loop -/

theorem stockIds_splitPick (order : String) (pid : Nat) (ls : List StockUnit) :
    stockIds (splitPick order pid ls) = stockIds ls := by
  simp only [stockIds, splitPick, List.map_map]
  apply List.map_congr_left
  intro u _
  simp only [Function.comp_apply]
  split <;> rfl

theorem stockIds_assignPick (order : String) (pid : Nat) (ls : List StockUnit) :
    stockIds (assignPick order pid ls) = stockIds ls := by
  simp only [stockIds, assignPick, List.map_map]
  apply List.map_congr_left
  intro u _
  simp only [Function.comp_apply]
  split <;> rfl

theorem stockIds_append (a b : List StockUnit) :
    stockIds (a ++ b) = stockIds a ++ stockIds b := by
  simp [stockIds]

theorem allocLoop_ids (order sku : String) :
    ∀ (n : Nat) (ls : List StockUnit) (rands : List Nat),
      ∃ m, stockIds (allocLoop order sku n ls rands).1 = stockIds ls ++ m := by
  intro n
  induction n with
  | zero => intro ls rands; exact ⟨[], by simp [allocLoop]⟩
  | succ k ih =>
    intro ls rands
    simp only [allocLoop]
    cases havail : availablePicks sku ls with
    | nil => exact ⟨[], by simp⟩
    | cons u rest =>
      dsimp only
      by_cases hq : u.qty > 1
      · rw [if_pos hq]
        obtain ⟨m, hm⟩ := ih
          (splitPick order u.id ls ++ [remainderRow order sku u (rands.headD 100)])
          rands.tail
        refine ⟨(remainderRow order sku u (rands.headD 100)).id :: m, ?_⟩
        rw [hm, stockIds_append, stockIds_splitPick]
        simp [stockIds]
      · rw [if_neg hq]
        obtain ⟨m, hm⟩ := ih (assignPick order u.id ls) rands
        refine ⟨m, ?_⟩
        rw [hm, stockIds_assignPick]

theorem processOrder_ids (env : Env) (now : String) (st : AllocState)
    (o : String × String × Option Int) :
    ∃ m, stockIds (processOrder env now st o).1 = stockIds st.1 ++ m := by
  obtain ⟨ls, os, rands⟩ := st
  obtain ⟨order, sku, oq⟩ := o
  cases oq with
  | none => exact ⟨[], by simp [processOrder]⟩
  | some q =>
    simp only [processOrder]
    split
    · exact ⟨[], by simp⟩
    · split
      · exact ⟨[], by simp⟩
      · split
        · split
          · exact ⟨[], by simp⟩
          · split
            · split
              · split
                · exact ⟨[], by simp⟩
                · exact ⟨[], by simp⟩
              · exact ⟨[], by simp⟩
            · exact ⟨[], by simp⟩
        · obtain ⟨m, hm⟩ := allocLoop_ids order sku
            (q - (alreadyAllocatedCount ls sku order : Int)).toNat ls rands
          split
          · exact ⟨m, hm⟩
          · exact ⟨m, hm⟩

theorem foldl_processOrder_ids (env : Env) (now : String) :
    ∀ (sel : List (String × String × Option Int)) (st : AllocState),
      ∃ m, stockIds (sel.foldl (processOrder env now) st).1 =
        stockIds st.1 ++ m := by
  intro sel
  induction sel with
  | nil => intro st; exact ⟨[], by simp⟩
  | cons o rest ih =>
    intro st
    obtain ⟨m1, hm1⟩ := processOrder_ids env now st o
    obtain ⟨m2, hm2⟩ := ih (processOrder env now st o)
    exact ⟨m1 ++ m2, by simp [List.foldl_cons, hm2, hm1]⟩

theorem run_pick_allocation_ids (env : Env) (now : String) (rands : List Nat)
    (ls : List StockUnit) (os : List OrderLine) :
    ∃ m, stockIds (run_pick_allocation env now rands ls os).1 =
      stockIds ls ++ m :=
  foldl_processOrder_ids env now (selectOrders os) (ls, os, rands)

/-! ### Branch equations for the allocation loop -/

theorem stockIds_cons (u : StockUnit) (us : List StockUnit) :
    stockIds (u :: us) = u.id :: stockIds us := by
  simp [stockIds]

theorem allocLoop_nil {order sku : String} {n : Nat} {ls : List StockUnit}
    {rands : List Nat} (h : availablePicks sku ls = []) :
    allocLoop order sku (n + 1) ls rands = (ls, 0, rands) := by
  simp [allocLoop, h]

theorem allocLoop_split {order sku : String} {n : Nat} {ls : List StockUnit}
    {rands : List Nat} {u : StockUnit} {rest : List StockUnit}
    (h : availablePicks sku ls = u :: rest) (hq : u.qty > 1) :
    allocLoop order sku (n + 1) ls rands =
      ((allocLoop order sku n
          (splitPick order u.id ls ++ [remainderRow order sku u (rands.headD 100)])
          rands.tail).1,
       (allocLoop order sku n
          (splitPick order u.id ls ++ [remainderRow order sku u (rands.headD 100)])
          rands.tail).2.1 + 1,
       (allocLoop order sku n
          (splitPick order u.id ls ++ [remainderRow order sku u (rands.headD 100)])
          rands.tail).2.2) := by
  simp [allocLoop, h, hq]

theorem allocLoop_assign {order sku : String} {n : Nat} {ls : List StockUnit}
    {rands : List Nat} {u : StockUnit} {rest : List StockUnit}
    (h : availablePicks sku ls = u :: rest) (hq : ¬ u.qty > 1) :
    allocLoop order sku (n + 1) ls rands =
      ((allocLoop order sku n (assignPick order u.id ls) rands).1,
       (allocLoop order sku n (assignPick order u.id ls) rands).2.1 + 1,
       (allocLoop order sku n (assignPick order u.id ls) rands).2.2) := by
  simp [allocLoop, h, hq]

theorem allocLoop_pos (order sku : String) (n : Nat) (ls : List StockUnit)
    (rands : List Nat) (h : availablePicks sku ls ≠ []) :
    0 < (allocLoop order sku (n + 1) ls rands).2.1 := by
  cases havail : availablePicks sku ls with
  | nil => exact absurd havail h
  | cons u rest =>
    by_cases hq : u.qty > 1
    · rw [allocLoop_split havail hq]
      exact Nat.succ_pos _
    · rw [allocLoop_assign havail hq]
      exact Nat.succ_pos _

/-! ### Rows already committed to an order are never touched -/

theorem nodup_ids_inj {ls : List StockUnit} (h : (stockIds ls).Nodup)
    {v w : StockUnit} (hv : v ∈ ls) (hw : w ∈ ls) (hid : v.id = w.id) :
    v = w :=
  List.inj_on_of_nodup_map h hv hw hid

theorem mem_splitPick_of_ne {order : String} {pid : Nat} {ls : List StockUnit}
    {v : StockUnit} (hv : v ∈ ls) (hne : v.id ≠ pid) :
    v ∈ splitPick order pid ls :=
  List.mem_map.mpr ⟨v, hv, by simp [hne]⟩

theorem mem_assignPick_of_ne {order : String} {pid : Nat} {ls : List StockUnit}
    {v : StockUnit} (hv : v ∈ ls) (hne : v.id ≠ pid) :
    v ∈ assignPick order pid ls :=
  List.mem_map.mpr ⟨v, hv, by simp [hne]⟩

theorem allocLoop_keeps_allocated (order sku : String) :
    ∀ (n : Nat) (ls : List StockUnit) (rands : List Nat),
      (stockIds (allocLoop order sku n ls rands).1).Nodup →
      ∀ v ∈ ls, v.ordernum ≠ "#FREE" →
        v ∈ (allocLoop order sku n ls rands).1 := by
  intro n
  induction n with
  | zero =>
    intro ls rands _ v hv _
    simpa [allocLoop] using hv
  | succ k ih =>
    intro ls rands hnod v hv hvfree
    cases havail : availablePicks sku ls with
    | nil =>
      rw [allocLoop_nil havail] at hnod ⊢
      exact hv
    | cons u rest =>
      obtain ⟨humem, hufree⟩ := availablePicks_head havail
      obtain ⟨hcode, hord, hdel, halloc⟩ := isFreeRow_spec hufree
      by_cases hq : u.qty > 1
      · rw [allocLoop_split havail hq] at hnod ⊢
        dsimp only at hnod ⊢
        obtain ⟨m, hm⟩ := allocLoop_ids order sku k
          (splitPick order u.id ls ++ [remainderRow order sku u (rands.headD 100)])
          rands.tail
        have hnod1 : (stockIds (splitPick order u.id ls ++
            [remainderRow order sku u (rands.headD 100)])).Nodup := by
          rw [hm] at hnod
          exact hnod.of_append_left
        have hnodls : (stockIds ls).Nodup := by
          rw [stockIds_append, stockIds_splitPick] at hnod1
          exact hnod1.of_append_left
        have hvne : v ≠ u := fun h => hvfree (by rw [h, hord])
        have hvid : v.id ≠ u.id := fun h => hvne (nodup_ids_inj hnodls hv humem h)
        exact ih _ rands.tail hnod _
          (List.mem_append_left _ (mem_splitPick_of_ne hv hvid)) hvfree
      · rw [allocLoop_assign havail hq] at hnod ⊢
        dsimp only at hnod ⊢
        obtain ⟨m, hm⟩ := allocLoop_ids order sku k (assignPick order u.id ls) rands
        have hnod1 : (stockIds (assignPick order u.id ls)).Nodup := by
          rw [hm] at hnod
          exact hnod.of_append_left
        have hnodls : (stockIds ls).Nodup := by
          rwa [stockIds_assignPick] at hnod1
        have hvne : v ≠ u := fun h => hvfree (by rw [h, hord])
        have hvid : v.id ≠ u.id := fun h => hvne (nodup_ids_inj hnodls hv humem h)
        exact ih _ rands hnod _ (mem_assignPick_of_ne hv hvid) hvfree

/-! ### Quantity conservation through the allocation loop -/

theorem totalQty_cons (sku : String) (u : StockUnit) (us : List StockUnit) :
    totalQty sku (u :: us) = contrib sku u + totalQty sku us := by
  simp only [totalQty, contrib, List.filter_cons]
  by_cases h : (u.code == sku && nonDeleted u) = true
  · rw [if_pos h, if_pos h]
    simp
  · rw [if_neg h, if_neg h]
    simp

theorem totalQty_append (sku : String) (a b : List StockUnit) :
    totalQty sku (a ++ b) = totalQty sku a + totalQty sku b := by
  induction a with
  | nil => simp [totalQty]
  | cons u us ih =>
    rw [List.cons_append, totalQty_cons, totalQty_cons, ih]
    ring

theorem totalQty_assignPick (sku order : String) (pid : Nat)
    (ls : List StockUnit) :
    totalQty sku (assignPick order pid ls) = totalQty sku ls := by
  induction ls with
  | nil => rfl
  | cons u us ih =>
    simp only [assignPick, List.map_cons] at ih ⊢
    rw [totalQty_cons, totalQty_cons, ih]
    congr 1
    by_cases h : (u.id == pid) = true
    · rw [if_pos h]
      rfl
    · rw [if_neg h]

theorem totalQty_splitPick (sku order : String) {ls : List StockUnit}
    {u : StockUnit} (hnod : (stockIds ls).Nodup) (hu : u ∈ ls) :
    totalQty sku (splitPick order u.id ls) =
      totalQty sku ls - contrib sku u +
        contrib sku { u with qty := 1, ordernum := order } := by
  obtain ⟨s, t, rfl⟩ := List.append_of_mem hu
  have hshape : stockIds (s ++ u :: t) = stockIds s ++ u.id :: stockIds t := by
    rw [stockIds_append, stockIds_cons]
  rw [hshape] at hnod
  rw [List.nodup_middle] at hnod
  have hnotin := (List.nodup_cons.mp hnod).1
  simp only [List.mem_append] at hnotin
  have hsplit : splitPick order u.id (s ++ u :: t) =
      s ++ { u with qty := 1, ordernum := order } :: t := by
    simp only [splitPick, List.map_append, List.map_cons]
    congr 1
    · conv_rhs => rw [← List.map_id s]
      apply List.map_congr_left
      intro w hw
      have hwne : w.id ≠ u.id := by
        intro he
        exact hnotin (Or.inl (by rw [← he]; exact List.mem_map_of_mem _ hw))
      simp [hwne]
    · congr 1
      · simp
      · conv_rhs => rw [← List.map_id t]
        apply List.map_congr_left
        intro w hw
        have hwne : w.id ≠ u.id := by
          intro he
          exact hnotin (Or.inr (by rw [← he]; exact List.mem_map_of_mem _ hw))
        simp [hwne]
  rw [hsplit, totalQty_append, totalQty_cons, totalQty_append, totalQty_cons]
  ring

theorem allocLoop_totalQty (order sku : String) :
    ∀ (n : Nat) (ls : List StockUnit) (rands : List Nat),
      (stockIds (allocLoop order sku n ls rands).1).Nodup →
      ∀ sk, totalQty sk (allocLoop order sku n ls rands).1 = totalQty sk ls := by
  intro n
  induction n with
  | zero =>
    intro ls rands _ sk
    simp [allocLoop]
  | succ k ih =>
    intro ls rands hnod sk
    cases havail : availablePicks sku ls with
    | nil =>
      rw [allocLoop_nil havail]
    | cons u rest =>
      obtain ⟨humem, hufree⟩ := availablePicks_head havail
      obtain ⟨hcode, hord, hdel, halloc⟩ := isFreeRow_spec hufree
      by_cases hq : u.qty > 1
      · rw [allocLoop_split havail hq] at hnod ⊢
        dsimp only at hnod ⊢
        obtain ⟨m, hm⟩ := allocLoop_ids order sku k
          (splitPick order u.id ls ++ [remainderRow order sku u (rands.headD 100)])
          rands.tail
        have hnod1 : (stockIds (splitPick order u.id ls ++
            [remainderRow order sku u (rands.headD 100)])).Nodup := by
          rw [hm] at hnod
          exact hnod.of_append_left
        have hnodls : (stockIds ls).Nodup := by
          rw [stockIds_append, stockIds_splitPick] at hnod1
          exact hnod1.of_append_left
        rw [ih _ rands.tail hnod sk, totalQty_append,
          totalQty_splitPick sk order hnodls humem]
        have hrem : totalQty sk [remainderRow order sku u (rands.headD 100)] =
            contrib sk (remainderRow order sku u (rands.headD 100)) := by
          rw [show [remainderRow order sku u (rands.headD 100)] =
            remainderRow order sku u (rands.headD 100) :: [] from rfl, totalQty_cons]
          simp [totalQty]
        rw [hrem]
        simp only [contrib, remainderRow, nonDeleted]
        rw [hcode]
        have hdel2 : (u.deleted == some 0 || u.deleted == none) = true := hdel
        by_cases hc : (sku == sk) = true
        · simp only [hdel2, hc, Bool.and_true, Bool.true_and, if_pos]
          have hrm : ((none : Option Int) == some 0 || (none : Option Int) == none) = true := by
            decide
          simp only [hrm, Bool.and_true, if_pos]
          ring
        · simp only [hdel2, hc]
          simp
      · rw [allocLoop_assign havail hq] at hnod ⊢
        dsimp only at hnod ⊢
        rw [ih _ rands hnod sk, totalQty_assignPick]

/-! ### Lifting the stock-ledger properties to a whole run -/

theorem processOrder_fst (env : Env) (now : String) (st : AllocState)
    (o : String × String × Option Int) :
    (processOrder env now st o).1 = st.1 ∨
    ∃ n, (processOrder env now st o).1 = (allocLoop o.1 o.2.1 n st.1 st.2.2).1 := by
  obtain ⟨ls, os, rands⟩ := st
  obtain ⟨order, sku, oq⟩ := o
  cases oq with
  | none => exact Or.inl rfl
  | some q =>
    simp only [processOrder]
    split
    · exact Or.inl rfl
    · split
      · exact Or.inl rfl
      · split
        · split
          · exact Or.inl rfl
          · split
            · split
              · split
                · exact Or.inl rfl
                · exact Or.inl rfl
              · exact Or.inl rfl
            · exact Or.inl rfl
        · split
          · exact Or.inr ⟨_, rfl⟩
          · exact Or.inr ⟨_, rfl⟩

theorem processOrder_keeps_allocated (env : Env) (now : String)
    (st : AllocState) (o : String × String × Option Int)
    (hnod : (stockIds (processOrder env now st o).1).Nodup) :
    ∀ v ∈ st.1, v.ordernum ≠ "#FREE" → v ∈ (processOrder env now st o).1 := by
  rcases processOrder_fst env now st o with h | ⟨n, h⟩
  · rw [h]
    exact fun v hv _ => hv
  · rw [h] at hnod ⊢
    exact allocLoop_keeps_allocated o.1 o.2.1 n st.1 st.2.2 hnod

theorem processOrder_totalQty (env : Env) (now : String)
    (st : AllocState) (o : String × String × Option Int)
    (hnod : (stockIds (processOrder env now st o).1).Nodup) (sk : String) :
    totalQty sk (processOrder env now st o).1 = totalQty sk st.1 := by
  rcases processOrder_fst env now st o with h | ⟨n, h⟩
  · rw [h]
  · rw [h] at hnod ⊢
    exact allocLoop_totalQty o.1 o.2.1 n st.1 st.2.2 hnod sk

theorem foldl_keeps_allocated (env : Env) (now : String) :
    ∀ (sel : List (String × String × Option Int)) (st : AllocState),
      (stockIds (sel.foldl (processOrder env now) st).1).Nodup →
      ∀ v ∈ st.1, v.ordernum ≠ "#FREE" →
        v ∈ (sel.foldl (processOrder env now) st).1 := by
  intro sel
  induction sel with
  | nil =>
    intro st _ v hv _
    exact hv
  | cons o rest ih =>
    intro st hnod v hv hvf
    rw [List.foldl_cons] at hnod ⊢
    have hnod1 : (stockIds (processOrder env now st o).1).Nodup := by
      obtain ⟨m, hm⟩ := foldl_processOrder_ids env now rest (processOrder env now st o)
      rw [hm] at hnod
      exact hnod.of_append_left
    exact ih (processOrder env now st o) hnod
      v (processOrder_keeps_allocated env now st o hnod1 v hv hvf) hvf

theorem foldl_totalQty (env : Env) (now : String) :
    ∀ (sel : List (String × String × Option Int)) (st : AllocState),
      (stockIds (sel.foldl (processOrder env now) st).1).Nodup →
      ∀ sk, totalQty sk (sel.foldl (processOrder env now) st).1 =
        totalQty sk st.1 := by
  intro sel
  induction sel with
  | nil =>
    intro st _ sk
    rfl
  | cons o rest ih =>
    intro st hnod sk
    rw [List.foldl_cons] at hnod ⊢
    have hnod1 : (stockIds (processOrder env now st o).1).Nodup := by
      obtain ⟨m, hm⟩ := foldl_processOrder_ids env now rest (processOrder env now st o)
      rw [hm] at hnod
      exact hnod.of_append_left
    rw [ih (processOrder env now st o) hnod sk,
      processOrder_totalQty env now st o hnod1 sk]

/-! ### The order-line side of one processed line -/

theorem updateLine_getElem (key : String × String) (f : OrderLine → OrderLine)
    (os : List OrderLine) (i : Nat) :
    (updateLine key f os)[i]? = (os[i]?).map
      (fun l => if (l.ordernum == key.1 && l.shopifysku == key.2) = true
        then f l else l) := by
  simp [updateLine, List.getElem?_map]

theorem allCZ_false_localstock (l : OrderLine) (now : String) {v : Int}
    (hv : v ≠ 0) :
    allCountersZero { l with orderdate := now, localstock := some v } = false := by
  simp [allCountersZero, coalesce0, hv]

theorem allCZ_false_amz (l : OrderLine) {v : Int} (hv : v ≠ 0) :
    allCountersZero { l with amz := some v } = false := by
  simp [allCountersZero, coalesce0, hv]

theorem allCZ_false_ukd (l : OrderLine) {v : Int} (hv : v ≠ 0) :
    allCountersZero { l with ukd := some v } = false := by
  simp [allCountersZero, coalesce0, hv]

theorem allCZ_false_other (l : OrderLine) {v : Int} (hv : v ≠ 0) :
    allCountersZero { l with othersupplier := some v } = false := by
  simp [allCountersZero, coalesce0, hv]

theorem processOrder_snd (env : Env) (now : String) (st : AllocState)
    (o : String × String × Option Int) :
    ((processOrder env now st o).2.1 = st.2.1 ∧
      (o.2.2 = none ∨ ∃ q, o.2.2 = some q ∧ q ≤ 0)) ∨
    ∃ f, (processOrder env now st o).2.1 = updateLine (o.1, o.2.1) f st.2.1 ∧
      ∀ l : OrderLine, lineKey (f l) = lineKey l ∧ (f l).qty = l.qty ∧
        allCountersZero (f l) = false := by
  obtain ⟨ls, os, rands⟩ := st
  obtain ⟨order, sku, oq⟩ := o
  cases oq with
  | none => exact Or.inl ⟨rfl, Or.inl rfl⟩
  | some q =>
    simp only [processOrder]
    split
    · next hq0 => exact Or.inl ⟨rfl, Or.inr ⟨q, rfl, hq0⟩⟩
    next hq0 =>
      split
      · next hge =>
        exact Or.inr ⟨_, rfl, fun l =>
          ⟨rfl, rfl, allCZ_false_localstock l now (by omega)⟩⟩
      next hge =>
        split
        · split
          · next hamz =>
            exact Or.inr ⟨_, rfl, fun l =>
              ⟨rfl, rfl, allCZ_false_amz l (by omega)⟩⟩
          · split
            · split
              · split
                · next hukd =>
                  exact Or.inr ⟨_, rfl, fun l =>
                    ⟨rfl, rfl, allCZ_false_ukd l (by omega)⟩⟩
                · exact Or.inr ⟨_, rfl, fun l =>
                    ⟨rfl, rfl, allCZ_false_ukd l (by omega)⟩⟩
              · exact Or.inr ⟨_, rfl, fun l =>
                  ⟨rfl, rfl, allCZ_false_other l (by omega)⟩⟩
            · exact Or.inr ⟨_, rfl, fun l =>
                ⟨rfl, rfl, allCZ_false_other l (by omega)⟩⟩
        · next hnonempty =>
          split
          · next hk =>
            exact Or.inr ⟨_, rfl, fun l =>
              ⟨rfl, rfl, allCZ_false_localstock l now (by omega)⟩⟩
          · next hk =>
            exfalso
            have hne : availablePicks sku ls ≠ [] := by
              intro he
              rw [List.isEmpty_iff] at hnonempty
              exact hnonempty he
            have hfuel : ∃ n, (q - (alreadyAllocatedCount ls sku order : Int)).toNat
                = n + 1 := by
              refine ⟨(q - (alreadyAllocatedCount ls sku order : Int)).toNat - 1, ?_⟩
              omega
            obtain ⟨n, hn⟩ := hfuel
            rw [hn] at hk
            exact hk (allocLoop_pos order sku n ls rands hne)

theorem processOrder_dichotomy (env : Env) (now : String) (st : AllocState)
    (o : String × String × Option Int) (i : Nat) :
    ((processOrder env now st o).2.1)[i]? = (st.2.1)[i]? ∨
    ∃ l', ((processOrder env now st o).2.1)[i]? = some l' ∧
      allCountersZero l' = false := by
  rcases processOrder_snd env now st o with ⟨h, _⟩ | ⟨f, hf, hprop⟩
  · left
    rw [h]
  · rw [hf, updateLine_getElem]
    cases hos : (st.2.1)[i]? with
    | none => left; rfl
    | some l =>
      by_cases hm : (l.ordernum == o.1 && l.shopifysku == o.2.1) = true
      · right
        refine ⟨f l, ?_, (hprop l).2.2⟩
        simp only [Option.map_some']
        rw [if_pos hm]
      · left
        simp only [Option.map_some']
        rw [if_neg hm]

theorem processOrder_lineKey (env : Env) (now : String) (st : AllocState)
    (o : String × String × Option Int) (i : Nat) :
    ((processOrder env now st o).2.1)[i]?.map lineKey =
      (st.2.1)[i]?.map lineKey := by
  rcases processOrder_snd env now st o with ⟨h, _⟩ | ⟨f, hf, hprop⟩
  · rw [h]
  · rw [hf, updateLine_getElem]
    cases hos : (st.2.1)[i]? with
    | none => rfl
    | some l =>
      by_cases hm : (l.ordernum == o.1 && l.shopifysku == o.2.1) = true
      · simp only [Option.map_some']
        rw [if_pos hm, (hprop l).1]
      · simp only [Option.map_some']
        rw [if_neg hm]

theorem processOrder_keeps_false (env : Env) (now : String) (st : AllocState)
    (o : String × String × Option Int) (i : Nat) (l : OrderLine)
    (hl : (st.2.1)[i]? = some l) (hfalse : allCountersZero l = false) :
    ∃ l', ((processOrder env now st o).2.1)[i]? = some l' ∧
      allCountersZero l' = false := by
  rcases processOrder_dichotomy env now st o i with h | h
  · exact ⟨l, by rw [h, hl], hfalse⟩
  · exact h

theorem foldl_keeps_false (env : Env) (now : String) :
    ∀ (sel : List (String × String × Option Int)) (st : AllocState)
      (i : Nat) (l : OrderLine), (st.2.1)[i]? = some l →
      allCountersZero l = false →
      ∃ l', ((sel.foldl (processOrder env now) st).2.1)[i]? = some l' ∧
        allCountersZero l' = false := by
  intro sel
  induction sel with
  | nil =>
    intro st i l hl hf
    exact ⟨l, hl, hf⟩
  | cons o rest ih =>
    intro st i l hl hf
    rw [List.foldl_cons]
    obtain ⟨l', hl', hf'⟩ := processOrder_keeps_false env now st o i l hl hf
    exact ih (processOrder env now st o) i l' hl' hf'

theorem foldl_dichotomy (env : Env) (now : String) :
    ∀ (sel : List (String × String × Option Int)) (st : AllocState) (i : Nat),
      ((sel.foldl (processOrder env now) st).2.1)[i]? = (st.2.1)[i]? ∨
      ∃ l', ((sel.foldl (processOrder env now) st).2.1)[i]? = some l' ∧
        allCountersZero l' = false := by
  intro sel
  induction sel with
  | nil =>
    intro st i
    exact Or.inl rfl
  | cons o rest ih =>
    intro st i
    rw [List.foldl_cons]
    rcases processOrder_dichotomy env now st o i with h | ⟨l', hl', hf'⟩
    · rcases ih (processOrder env now st o) i with h2 | h2
      · left
        rw [h2, h]
      · right
        exact h2
    · right
      exact foldl_keeps_false env now rest (processOrder env now st o) i l' hl' hf'

theorem processOrder_hits_key (env : Env) (now : String) (st : AllocState)
    (order sku : String) (q : Int) (hq : 1 ≤ q) (i : Nat) (l : OrderLine)
    (hl : (st.2.1)[i]? = some l) (hk1 : l.ordernum = order)
    (hk2 : l.shopifysku = sku) :
    ∃ l', ((processOrder env now st (order, sku, some q)).2.1)[i]? = some l' ∧
      allCountersZero l' = false := by
  rcases processOrder_snd env now st (order, sku, some q) with ⟨_, hbad⟩ | ⟨f, hf, hprop⟩
  · rcases hbad with h | ⟨q', hq', hq'0⟩
    · exact absurd h (by simp)
    · have : q' = q := by
        have := hq'.symm
        simpa using this
      omega
  · rw [hf, updateLine_getElem, hl]
    have hm : (l.ordernum == order && l.shopifysku == sku) = true := by
      simp [hk1, hk2]
    refine ⟨f l, ?_, (hprop l).2.2⟩
    simp only [Option.map_some']
    rw [if_pos hm]

theorem foldl_hits_key (env : Env) (now : String) :
    ∀ (sel : List (String × String × Option Int)) (st : AllocState)
      (order sku : String) (q : Int), (order, sku, some q) ∈ sel → 1 ≤ q →
      ∀ (i : Nat) (l : OrderLine), (st.2.1)[i]? = some l →
      l.ordernum = order → l.shopifysku = sku →
      ∃ l', ((sel.foldl (processOrder env now) st).2.1)[i]? = some l' ∧
        allCountersZero l' = false := by
  intro sel
  induction sel with
  | nil =>
    intro st order sku q hmem
    exact absurd hmem (List.not_mem_nil _)
  | cons o rest ih =>
    intro st order sku q hmem hq i l hl hk1 hk2
    rw [List.foldl_cons]
    rcases List.mem_cons.mp hmem with heq | hrest
    · subst heq
      obtain ⟨l', hl', hf'⟩ :=
        processOrder_hits_key env now st order sku q hq i l hl hk1 hk2
      exact foldl_keeps_false env now rest _ i l' hl' hf'
    · have hkey := processOrder_lineKey env now st o i
      rw [hl] at hkey
      cases hst' : ((processOrder env now st o).2.1)[i]? with
      | none =>
        rw [hst'] at hkey
        exact absurd hkey (by simp)
      | some l2 =>
        rw [hst'] at hkey
        have hkl2 : lineKey l2 = lineKey l := by
          simpa using hkey
        have hk1' : l2.ordernum = order := by
          have := congrArg Prod.fst hkl2
          simpa [lineKey, hk1] using this
        have hk2' : l2.shopifysku = sku := by
          have := congrArg Prod.snd hkl2
          simpa [lineKey, hk2] using this
        exact ih (processOrder env now st o) order sku q hrest hq i l2 hst' hk1' hk2'

/-! ### Selection facts -/

theorem selPred_counters {l : OrderLine} (h : selPred l = true) :
    allCountersZero l = true := by
  simp only [selPred, Bool.and_eq_true] at h
  simp only [allCountersZero, Bool.and_eq_true]
  tauto

theorem selPred_false_of_counters {l : OrderLine}
    (h : allCountersZero l = false) : selPred l = false := by
  by_contra hne
  have : selPred l = true := by
    cases hsel : selPred l
    · exact absurd hsel hne
    · rfl
  rw [selPred_counters this] at h
  exact absurd h (by simp)

theorem selectOrders_sound {os : List OrderLine} {l : OrderLine}
    (h1 : l ∈ os) (h2 : selPred l = true) :
    (l.ordernum, l.shopifysku, l.qty) ∈ selectOrders os :=
  List.mem_map_of_mem _ (List.mem_filter.mpr ⟨h1, h2⟩)

theorem selectOrders_inv {os : List OrderLine}
    {o : String × String × Option Int} (h : o ∈ selectOrders os) :
    ∃ l ∈ os, selPred l = true ∧ o = (l.ordernum, l.shopifysku, l.qty) := by
  obtain ⟨l, hl, rfl⟩ := List.mem_map.mp h
  obtain ⟨hmem, hsel⟩ := List.mem_filter.mp hl
  exact ⟨l, hmem, hsel, rfl⟩

theorem processOrder_invalid (env : Env) (now : String) (st : AllocState)
    (o : String × String × Option Int)
    (h : o.2.2 = none ∨ ∃ q, o.2.2 = some q ∧ q ≤ 0) :
    processOrder env now st o = st := by
  obtain ⟨ls, os, rands⟩ := st
  obtain ⟨order, sku, oq⟩ := o
  rcases h with h | ⟨q, hq, hq0⟩
  · simp only at h
    subst h
    rfl
  · simp only at hq
    subst hq
    simp [processOrder, hq0]

theorem foldl_invalid_id (env : Env) (now : String) :
    ∀ (sel : List (String × String × Option Int)) (st : AllocState),
      (∀ o ∈ sel, o.2.2 = none ∨ ∃ q, o.2.2 = some q ∧ q ≤ 0) →
      sel.foldl (processOrder env now) st = st := by
  intro sel
  induction sel with
  | nil => intro st _; rfl
  | cons o rest ih =>
    intro st h
    rw [List.foldl_cons, processOrder_invalid env now st o (h o (List.mem_cons_self o rest))]
    exact ih st (fun o' ho' => h o' (List.mem_cons_of_mem o ho'))

/-! ### A second run selects only lines it will skip -/

theorem second_run_selects_invalid (env1 : Env) (now1 : String) (r1 : List Nat)
    (ls : List StockUnit) (os : List OrderLine) :
    ∀ o ∈ selectOrders (run_pick_allocation env1 now1 r1 ls os).2.1,
      o.2.2 = none ∨ ∃ q, o.2.2 = some q ∧ q ≤ 0 := by
  intro o hos
  obtain ⟨l, hl, hsel, rfl⟩ := selectOrders_inv hos
  simp only [run_pick_allocation] at hl
  by_cases hvalid : ∃ q, l.qty = some q ∧ 1 ≤ q
  · exfalso
    obtain ⟨q, hq, hq1⟩ := hvalid
    obtain ⟨i, hi⟩ := List.mem_iff_getElem?.mp hl
    rcases foldl_dichotomy env1 now1 (selectOrders os) (ls, os, r1) i with
      hsame | ⟨l', hl', hfalse⟩
    · have hlos : os[i]? = some l := hsame.symm.trans hi
      have hlmem : l ∈ os := List.mem_iff_getElem?.mpr ⟨i, hlos⟩
      have hselos : (l.ordernum, l.shopifysku, l.qty) ∈ selectOrders os :=
        selectOrders_sound hlmem hsel
      rw [hq] at hselos
      obtain ⟨l', hl', hfalse⟩ := foldl_hits_key env1 now1 (selectOrders os)
        (ls, os, r1) l.ordernum l.shopifysku q hselos hq1 i l hlos rfl rfl
      have hll : l' = l := Option.some.inj (hl'.symm.trans hi)
      rw [hll, selPred_counters hsel] at hfalse
      exact absurd hfalse (by simp)
    · have hll : l' = l := Option.some.inj (hl'.symm.trans hi)
      rw [hll, selPred_counters hsel] at hfalse
      exact absurd hfalse (by simp)
  · cases hq : l.qty with
    | none => exact Or.inl rfl
    | some q =>
      refine Or.inr ⟨q, rfl, ?_⟩
      by_contra hqpos
      exact hvalid ⟨q, hq, by omega⟩

theorem second_run_noop (env1 env2 : Env) (now1 now2 : String)
    (r1 r2 : List Nat) (ls : List StockUnit) (os : List OrderLine) :
    run_pick_allocation env2 now2 r2 (run_pick_allocation env1 now1 r1 ls os).1
      (run_pick_allocation env1 now1 r1 ls os).2.1 =
    ((run_pick_allocation env1 now1 r1 ls os).1,
     (run_pick_allocation env1 now1 r1 ls os).2.1, r2) := by
  exact foldl_invalid_id env2 now2 _ _
    (second_run_selects_invalid env1 now1 r1 ls os)

/-! ### Counter writes persist across later runs -/

theorem runLedger_keeps_false (env : Env) (now : String) (rands : List Nat)
    (ls : List StockUnit) (os : List OrderLine) (i : Nat) (l : OrderLine)
    (hl : os[i]? = some l) (hf : allCountersZero l = false) :
    ∃ l', ((runLedger env now rands ls os).2)[i]? = some l' ∧
      allCountersZero l' = false := by
  simp only [runLedger, run_pick_allocation]
  exact foldl_keeps_false env now (selectOrders os) (ls, os, rands) i l hl hf

theorem runSeq_keeps_false :
    ∀ (rs : List (Env × String × List Nat))
      (p : List StockUnit × List OrderLine) (i : Nat) (l : OrderLine),
      (p.2)[i]? = some l → allCountersZero l = false →
      ∃ l', ((runSeq rs p).2)[i]? = some l' ∧ allCountersZero l' = false := by
  intro rs
  induction rs with
  | nil =>
    intro p i l hl hf
    exact ⟨l, hl, hf⟩
  | cons r rest ih =>
    intro p i l hl hf
    obtain ⟨l', hl', hf'⟩ := runLedger_keeps_false r.1 r.2.1 r.2.2 p.1 p.2 i l hl hf
    exact ih (runLedger r.1 r.2.1 r.2.2 p.1 p.2) i l' hl' hf'

/-! ### Archival: copy-then-delete bookkeeping -/

theorem count_filter_drop {r : OrderLine} {os : List OrderLine}
    {p : OrderLine → Bool} (h : p r = false) : (os.filter p).count r = 0 := by
  rw [List.count_eq_zero]
  intro hmem
  rw [(List.mem_filter.mp hmem).2] at h
  exact absurd h (by simp)

theorem archStep_fst_count (st : List OrderLine × List OrderLine)
    (k : String × String) (r : OrderLine) :
    (archStep st k).1.count r =
      if (r.ordernum, r.shopifysku) = k then 0 else st.1.count r := by
  simp only [archStep]
  by_cases hk : (r.ordernum, r.shopifysku) = k
  · rw [if_pos hk]
    apply count_filter_drop
    have h1 : r.ordernum = k.1 := congrArg Prod.fst hk
    have h2 : r.shopifysku = k.2 := congrArg Prod.snd hk
    simp [h1, h2]
  · rw [if_neg hk]
    apply List.count_filter
    have hno : ¬ (r.ordernum = k.1 ∧ r.shopifysku = k.2) := by
      intro ⟨h1, h2⟩
      exact hk (Prod.ext h1 h2)
    by_cases h1 : r.ordernum = k.1
    · have h2 : r.shopifysku ≠ k.2 := fun h2 => hno ⟨h1, h2⟩
      simp [h1, h2]
    · simp [h1]

theorem archStep_snd_count (st : List OrderLine × List OrderLine)
    (k : String × String) (r : OrderLine) :
    (archStep st k).2.count r =
      if (r.ordernum, r.shopifysku) = k then st.2.count r + st.1.count r
      else st.2.count r := by
  simp only [archStep]
  rw [List.count_append]
  by_cases hk : (r.ordernum, r.shopifysku) = k
  · rw [if_pos hk]
    congr 1
    apply List.count_filter
    have h1 : r.ordernum = k.1 := congrArg Prod.fst hk
    have h2 : r.shopifysku = k.2 := congrArg Prod.snd hk
    simp [h1, h2]
  · rw [if_neg hk]
    have hz : (st.1.filter (fun l => l.ordernum == k.1 && l.shopifysku == k.2)).count r = 0 := by
      apply count_filter_drop
      have hno : ¬ (r.ordernum = k.1 ∧ r.shopifysku = k.2) := by
        intro ⟨h1, h2⟩
        exact hk (Prod.ext h1 h2)
      by_cases h1 : r.ordernum = k.1
      · have h2 : r.shopifysku ≠ k.2 := fun h2 => hno ⟨h1, h2⟩
        simp [h1, h2]
      · simp [h1]
    rw [hz]
    omega

theorem archFold_count :
    ∀ (keys : List (String × String)) (os ar : List OrderLine) (r : OrderLine),
      ((r.ordernum, r.shopifysku) ∈ keys →
        (keys.foldl archStep (os, ar)).1.count r = 0 ∧
        (keys.foldl archStep (os, ar)).2.count r = ar.count r + os.count r) ∧
      ((r.ordernum, r.shopifysku) ∉ keys →
        (keys.foldl archStep (os, ar)).1.count r = os.count r ∧
        (keys.foldl archStep (os, ar)).2.count r = ar.count r) := by
  intro keys
  induction keys with
  | nil =>
    intro os ar r
    exact ⟨fun h => absurd h (List.not_mem_nil _), fun _ => ⟨rfl, rfl⟩⟩
  | cons k rest ih =>
    intro os ar r
    have hstep1 := archStep_fst_count (os, ar) k r
    have hstep2 := archStep_snd_count (os, ar) k r
    dsimp only at hstep1 hstep2
    have hfold : (k :: rest).foldl archStep (os, ar) =
        rest.foldl archStep (archStep (os, ar) k) := rfl
    have harch : archStep (os, ar) k =
        ((archStep (os, ar) k).1, (archStep (os, ar) k).2) := rfl
    constructor
    · intro hmem
      rcases List.mem_cons.mp hmem with hk | hrest
      · rw [if_pos hk] at hstep1 hstep2
        by_cases hr : (r.ordernum, r.shopifysku) ∈ rest
        · obtain ⟨h1, h2⟩ := ((ih (archStep (os, ar) k).1 (archStep (os, ar) k).2 r).1) hr
          rw [hfold, harch]
          refine ⟨h1, ?_⟩
          rw [h2, hstep1, hstep2]
          omega
        · obtain ⟨h1, h2⟩ := ((ih (archStep (os, ar) k).1 (archStep (os, ar) k).2 r).2) hr
          rw [hfold, harch]
          exact ⟨by rw [h1, hstep1], by rw [h2, hstep2]⟩
      · by_cases hk : (r.ordernum, r.shopifysku) = k
        · rw [if_pos hk] at hstep1 hstep2
          obtain ⟨h1, h2⟩ := ((ih (archStep (os, ar) k).1 (archStep (os, ar) k).2 r).1) hrest
          rw [hfold, harch]
          refine ⟨h1, ?_⟩
          rw [h2, hstep1, hstep2]
          omega
        · rw [if_neg hk] at hstep1 hstep2
          obtain ⟨h1, h2⟩ := ((ih (archStep (os, ar) k).1 (archStep (os, ar) k).2 r).1) hrest
          rw [hfold, harch]
          refine ⟨h1, ?_⟩
          rw [h2, hstep1, hstep2]
    · intro hnot
      have hk : (r.ordernum, r.shopifysku) ≠ k := fun h =>
        hnot (List.mem_cons.mpr (Or.inl h))
      have hrest : (r.ordernum, r.shopifysku) ∉ rest := fun h =>
        hnot (List.mem_cons.mpr (Or.inr h))
      rw [if_neg hk] at hstep1 hstep2
      obtain ⟨h1, h2⟩ := ((ih (archStep (os, ar) k).1 (archStep (os, ar) k).2 r).2) hrest
      rw [hfold, harch]
      exact ⟨by rw [h1, hstep1], by rw [h2, hstep2]⟩

theorem mem_keysToArchive {current : List (String × String)}
    {os : List OrderLine} {k : String × String} :
    k ∈ keysToArchive current os ↔ k ∈ shopifyKeys os ∧ k ∉ current := by
  simp [keysToArchive, List.mem_filter]

theorem mem_shopifyKeys_of {os : List OrderLine} {r : OrderLine}
    (hr : r ∈ os) (hc : r.channel = "SHOPIFY") :
    (r.ordernum, r.shopifysku) ∈ shopifyKeys os := by
  apply List.mem_map_of_mem
  exact List.mem_filter.mpr ⟨hr, by simp [hc]⟩

theorem archive_keeps_current (current : List (String × String))
    (os archive : List OrderLine) (ls : List StockUnit) :
    ∀ r ∈ os, (r.ordernum, r.shopifysku) ∈ current →
      r ∈ (archive_old_orders current os archive ls).1 ∧
      ((archive_old_orders current os archive ls).2.1).count r =
        archive.count r := by
  intro r hr hcur
  simp only [archive_old_orders]
  split
  · exact ⟨hr, rfl⟩
  · have hnot : (r.ordernum, r.shopifysku) ∉ keysToArchive current os := fun h =>
      (mem_keysToArchive.mp h).2 hcur
    obtain ⟨h1, h2⟩ :=
      (archFold_count (keysToArchive current os) os archive r).2 hnot
    refine ⟨?_, h2⟩
    have hpos : 0 < os.count r := List.count_pos_iff.mpr hr
    exact List.count_pos_iff.mp (by rw [h1]; exact hpos)

theorem archive_removes_vanished (current : List (String × String))
    (os archive : List OrderLine) (ls : List StockUnit) :
    ∀ r ∈ os, r.channel = "SHOPIFY" → (r.ordernum, r.shopifysku) ∉ current →
      ((archive_old_orders current os archive ls).1).count r = 0 ∧
      ((archive_old_orders current os archive ls).2.1).count r =
        archive.count r + os.count r := by
  intro r hr hch hncur
  have hmemk : (r.ordernum, r.shopifysku) ∈ keysToArchive current os :=
    mem_keysToArchive.mpr ⟨mem_shopifyKeys_of hr hch, hncur⟩
  simp only [archive_old_orders]
  split
  · next hemp =>
    exfalso
    rw [List.isEmpty_iff] at hemp
    rw [hemp] at hmemk
    exact List.not_mem_nil _ hmemk
  · exact (archFold_count (keysToArchive current os) os archive r).1 hmemk

theorem archive_gate_empty (current : List (String × String))
    (os archive : List OrderLine) (ls : List StockUnit)
    (h : ∀ x ∈ os, x.channel = "SHOPIFY" → (x.ordernum, x.shopifysku) ∈ current) :
    (archive_old_orders current os archive ls).2.2 = ls := by
  have hnil : keysToArchive current os = [] := by
    rw [keysToArchive, List.filter_eq_nil_iff]
    intro k hk
    obtain ⟨x, hx, hkey⟩ := List.mem_map.mp hk
    obtain ⟨hxos, hxch⟩ := List.mem_filter.mp hx
    have hch : x.channel = "SHOPIFY" := by simpa using hxch
    have hmem := h x hxos hch
    rw [hkey] at hmem
    simp [hmem]
  simp [archive_old_orders, hnil]

theorem archive_gate_nonempty (current : List (String × String))
    (os archive : List OrderLine) (ls : List StockUnit)
    (h : ∃ x ∈ os, x.channel = "SHOPIFY" ∧ (x.ordernum, x.shopifysku) ∉ current) :
    (archive_old_orders current os archive ls).2.2 =
      remove_done_picks_from_localstock
        (archive_old_orders current os archive ls).1 ls := by
  obtain ⟨x, hx, hch, hncur⟩ := h
  have hmemk : (x.ordernum, x.shopifysku) ∈ keysToArchive current os :=
    mem_keysToArchive.mpr ⟨mem_shopifyKeys_of hx hch, hncur⟩
  have hne : ¬ ((keysToArchive current os).isEmpty = true) := by
    intro hemp
    rw [List.isEmpty_iff] at hemp
    rw [hemp] at hmemk
    exact List.not_mem_nil _ hmemk
  simp only [archive_old_orders]
  rw [if_neg hne]

/-! ### Pointwise update helpers for the order-line tier statements -/

theorem allocLoop_toNat_pos (order sku : String) (ls : List StockUnit)
    (rands : List Nat) {d : Int} (hd : 1 ≤ d)
    (hne : availablePicks sku ls ≠ []) :
    0 < (allocLoop order sku d.toNat ls rands).2.1 := by
  obtain ⟨n, hn⟩ : ∃ n, d.toNat = n + 1 := ⟨d.toNat - 1, by omega⟩
  rw [hn]
  exact allocLoop_pos order sku n ls rands hne

theorem updateLine_pointwise_eq {α : Type} (key : String × String)
    (f : OrderLine → OrderLine) (g : OrderLine → α)
    (hf : ∀ l, g (f l) = g l) (os : List OrderLine) (i : Nat) :
    ((updateLine key f os)[i]?).map g = (os[i]?).map g := by
  rw [updateLine_getElem]
  cases os[i]? with
  | none => rfl
  | some l =>
    simp only [Option.map_some']
    split
    · rw [hf l]
    · rfl

theorem updateLine_key_some (key : String × String)
    (f : OrderLine → OrderLine) (os : List OrderLine) (i : Nat)
    (l : OrderLine) (hl : os[i]? = some l) (h1 : l.ordernum = key.1)
    (h2 : l.shopifysku = key.2) :
    (updateLine key f os)[i]? = some (f l) := by
  rw [updateLine_getElem, hl]
  simp only [Option.map_some']
  rw [if_pos (by simp [h1, h2])]

/-! ## The claims -/

/-- C1 counterexample: in the collision scenario the split for order BC500
mints the remainder id `fallbackId "BC500" 123` — the digits of the order
name concatenated with the 3-digit random draw, read back as an integer —
which equals 500123, the id of an existing unrelated sku-Z unit; after the
run two distinct live rows share id 500123, so the minted id is derived by
concatenating order text with a random suffix and is not globally unique,
contradicting the claim. -/
theorem c1_counterexample :
    fallbackId "BC500" 123 = 500123 ∧
    ((run_pick_allocation envEmpty "T1" [123] lsCollision osCollision).1.filter
      (fun u => u.id == 500123)).length = 2 :=
  ⟨by decide, by decide⟩

/-- C1 amended: provided the unit ids of the resulting stock ledger are
pairwise distinct (equivalently, no minted remainder id ever collided with a
live id during the run), no double allocation occurs: every unit already
committed to an order (`ordernum ≠ '#FREE'`) survives the run entirely
untouched — it is never reassigned to another order — and every id
references at most one stock row.  Units are only ever assigned from rows
that satisfy the availability guard (`ordernum = '#FREE'`,
`allocated = 'unallocated'`) when re-queried.  The remainder id of a split,
however, is `fallbackId`: the digits of the order name concatenated with a
random suffix, with no global-uniqueness guarantee. -/
theorem c1_no_double_allocation_amended (env : Env) (now : String)
    (rands : List Nat) (ls : List StockUnit) (os : List OrderLine)
    (hnod : (stockIds (run_pick_allocation env now rands ls os).1).Nodup) :
    (∀ v ∈ ls, v.ordernum ≠ "#FREE" →
      v ∈ (run_pick_allocation env now rands ls os).1) ∧
    (∀ pid : Nat,
      (stockIds (run_pick_allocation env now rands ls os).1).count pid ≤ 1) := by
  constructor
  · exact foldl_keeps_allocated env now (selectOrders os) (ls, os, rands) hnod
  · exact fun pid => List.nodup_iff_count_le_one.mp hnod pid

/-- C1 witness: in a run whose resulting ids stay distinct, the unit already
committed to order BC9 is untouched while order BC7 is served from the free
stock. -/
theorem c1_witness :
    mkUnit 5 "X" 1 "A" "BC9" (some 0) ∈
      (run_pick_allocation envEmpty "T1" [111] lsWitness osWitness).1 :=
  (c1_no_double_allocation_amended envEmpty "T1" [111] lsWitness osWitness
    (by decide)).1 (mkUnit 5 "X" 1 "A" "BC9" (some 0)) (by decide) (by decide)

/-- C2 counterexample: in the collision scenario, the minted remainder id
500123 duplicates the id of a free sku-Z unit of quantity 7; the next
iteration's split issues `UPDATE … WHERE id = 500123`, which also clobbers
the sku-Z row down to quantity 1, so the total non-deleted quantity of sku Z
drops from 7 to 1 across one allocation run. -/
theorem c2_counterexample :
    totalQty "Z" lsCollision = 7 ∧
    totalQty "Z"
      (run_pick_allocation envEmpty "T1" [123] lsCollision osCollision).1 = 1 :=
  ⟨by decide, by decide⟩

/-- C2 amended: provided the unit ids of the resulting stock ledger are
pairwise distinct (no remainder-id collision occurred), every run of the
allocation engine conserves the total quantity of non-deleted stock rows of
every sku: a split turns a qty-N row into a qty-1 assigned row plus a
qty-(N−1) free row of the same sku and location, and nothing else changes
any quantity. -/
theorem c2_conservation_amended (env : Env) (now : String) (rands : List Nat)
    (ls : List StockUnit) (os : List OrderLine)
    (hnod : (stockIds (run_pick_allocation env now rands ls os).1).Nodup)
    (sku : String) :
    totalQty sku (run_pick_allocation env now rands ls os).1 =
      totalQty sku ls :=
  foldl_totalQty env now (selectOrders os) (ls, os, rands) hnod sku

/-- C2 witness: Example A conserves the total quantity of sku X (2 + 5
before, 1 + 1 + 1 + 4 after). -/
theorem c2_witness :
    totalQty "X" (run_pick_allocation envEmpty "T1" [111, 222] lsA osA).1 =
      totalQty "X" lsA :=
  c2_conservation_amended envEmpty "T1" [111, 222] lsA osA (by decide) "X"

/-- C4 counterexample: in the Example-B scenario (needs 2 of sku Y, zero
local stock, marketplace aggregate 1, supplier UKD with 5 available) the
engine sets `amz = 1` and then `continue`s to the next line: the `ukd`
counter stays 0 instead of the claimed 1. -/
theorem c4_counterexample :
    (((run_pick_allocation envB "T1" [] [] [mkLine "O2" "Y" (some 2)]).2.1)[0]?).map
      fallbackView = some (some 1, some 0, none) ∧
    ¬ ((((run_pick_allocation envB "T1" [] [] [mkLine "O2" "Y" (some 2)]).2.1)[0]?).map
      (fun l => coalesce0 l.ukd) = some 1) :=
  ⟨by decide, by decide⟩

/-- C4 amended: in the Example-B scenario the engine allocates
`amz = min(2, 1) = 1` and stops processing the line; the secondary-warehouse
tier is never consulted, so `ukd` remains 0 and `othersupplier` remains
`NULL`, and no fulfillment timestamp is written. -/
theorem c4_chain_amended :
    run_pick_allocation envB "T1" [] [] [mkLine "O2" "Y" (some 2)] =
      ([], [{ mkLine "O2" "Y" (some 2) with amz := some 1 }], []) := by
  decide

/-- C5: running the pick-allocation engine twice with no intervening stock
change yields the ledger state of the first run unchanged: every line the
first run processed ends with a nonzero allocation counter and is therefore
excluded by the second run's selection query, and the lines the first run
skipped (missing or non-positive quantity) are skipped again, so the second
run performs no split, no assignment and no order-line update at all. -/
theorem c5_idempotence (env1 env2 : Env) (now1 now2 : String)
    (r1 r2 : List Nat) (ls : List StockUnit) (os : List OrderLine) :
    runLedger env2 now2 r2 (runLedger env1 now1 r1 ls os).1
      (runLedger env1 now1 r1 ls os).2 = runLedger env1 now1 r1 ls os := by
  have h := second_run_noop env1 env2 now1 now2 r1 r2 ls os
  simp only [runLedger]
  rw [h]

/-- C6 counterexample: in Example A the engine does not assign unit 1 whole
with its quantity 2 unchanged — it shrinks it to quantity 1 (splitting off a
qty-1 remainder), so after the run the row with id 1 has quantity 1, not the
claimed 2. -/
theorem c6_counterexample :
    ((run_pick_allocation envEmpty "T1" [111, 222] lsA osA).1.filter
      (fun u => u.id == 1)).map (fun u => (u.qty, u.ordernum)) = [(1, "O1")] ∧
    ¬ (((run_pick_allocation envEmpty "T1" [111, 222] lsA osA).1.filter
      (fun u => u.id == 1)).map (fun u => u.qty) = [2]) :=
  ⟨by decide, by decide⟩

/-- C6 amended: in Example A the engine takes three single-unit picks: it
splits unit 1 into a qty-1 row assigned to O1 plus a fresh qty-1 free row at
location A (id 1111 = digits of "O1" ++ draw 111), then assigns that
remainder row whole, then splits unit 2 into a qty-1 row assigned to O1 plus
a qty-4 free row at location B (id 1222); the line ends with
`local_allocated_qty = 3`, a fulfillment timestamp, and no fallback tier
consulted. -/
theorem c6_local_example_amended :
    run_pick_allocation envEmpty "T1" [111, 222] lsA osA =
      ([{ mkUnit 1 "X" 2 "A" "#FREE" (some 0) with qty := 1, ordernum := "O1" },
        { mkUnit 2 "X" 5 "B" "#FREE" (some 0) with qty := 1, ordernum := "O1" },
        mkUnit 1111 "X" 1 "A" "O1" none,
        mkUnit 1222 "X" 4 "B" "#FREE" none],
       [{ mkLine "O1" "X" (some 3) with orderdate := "T1", localstock := some 3 }],
       []) := by
  decide

/-- C8: archival correctness — a key present in the current pull is never
archived (its rows survive and the archive gains no copy of them); a
feed-origin (`channel = 'SHOPIFY'`) row whose key is absent from the pull is
removed from the live ledger and its copies are appended to the archive
exactly once; and the stale-pick cleanup (deleting stock units whose
`ordernum` matches the `BC%` feed naming convention and no longer appears in
the live ledger) runs exactly when at least one key was archived. -/
theorem c8_archival (current : List (String × String))
    (os archive : List OrderLine) (ls : List StockUnit) :
    (∀ r ∈ os, (r.ordernum, r.shopifysku) ∈ current →
      r ∈ (archive_old_orders current os archive ls).1 ∧
      ((archive_old_orders current os archive ls).2.1).count r =
        archive.count r) ∧
    (∀ r ∈ os, r.channel = "SHOPIFY" → (r.ordernum, r.shopifysku) ∉ current →
      ((archive_old_orders current os archive ls).1).count r = 0 ∧
      ((archive_old_orders current os archive ls).2.1).count r =
        archive.count r + os.count r) ∧
    ((∀ x ∈ os, x.channel = "SHOPIFY" → (x.ordernum, x.shopifysku) ∈ current) →
      (archive_old_orders current os archive ls).2.2 = ls) ∧
    ((∃ x ∈ os, x.channel = "SHOPIFY" ∧ (x.ordernum, x.shopifysku) ∉ current) →
      (archive_old_orders current os archive ls).2.2 =
        remove_done_picks_from_localstock
          (archive_old_orders current os archive ls).1 ls) :=
  ⟨archive_keeps_current current os archive ls,
   archive_removes_vanished current os archive ls,
   archive_gate_empty current os archive ls,
   archive_gate_nonempty current os archive ls⟩

/-- C8 witness: in the archival scenario, line BC1/X (still in the pull)
survives, line BC9/Y (vanished) leaves the live ledger with exactly one copy
in the archive, and the stale-pick cleanup runs. -/
theorem c8_witness :
    mkLine "BC1" "X" (some 1) ∈ (archive_old_orders curArch osArch [] lsArch).1 ∧
    ((archive_old_orders curArch osArch [] lsArch).1).count
      (mkLine "BC9" "Y" (some 1)) = 0 ∧
    ((archive_old_orders curArch osArch [] lsArch).2.1).count
      (mkLine "BC9" "Y" (some 1)) = 1 ∧
    (archive_old_orders curArch osArch [] lsArch).2.2 =
      remove_done_picks_from_localstock
        (archive_old_orders curArch osArch [] lsArch).1 lsArch := by
  have h := c8_archival curArch osArch [] lsArch
  refine ⟨(h.1 (mkLine "BC1" "X" (some 1)) (by decide) (by decide)).1, ?_, ?_, ?_⟩
  · exact (h.2.1 (mkLine "BC9" "Y" (some 1)) (by decide) (by decide) (by decide)).1
  · have h2 := (h.2.1 (mkLine "BC9" "Y" (some 1)) (by decide) (by decide)
      (by decide)).2
    rw [h2]
    decide
  · exact h.2.2.2 ⟨mkLine "BC9" "Y" (some 1), by decide, by decide, by decide⟩

/-- C9 counterexample: a ledger-write failure on the first order line aborts
the whole run — `main` wraps the entire run in one transaction and rolls it
all back — so the second line's allocation (which the engine would have
recorded as `othersupplier = 1`) is lost as well, contradicting the claim
that processing continues with the next line and only the failing item is
left unchanged. -/
theorem c9_counterexample :
    mainPicksCommit failsBC1 envEmpty "T1" [] [] osTwoLines =
      ([], osTwoLines, []) ∧
    (((run_pick_allocation envEmpty "T1" [] [] osTwoLines).2.1)[1]?).map
      (fun l => l.othersupplier) = some (some 1) ∧
    ((osTwoLines)[1]?).map (fun l => l.othersupplier) = some none :=
  ⟨by decide, by decide, by decide⟩

/-- C9 amended: when any order-line ledger write fails, the single run-level
transaction of `main` is rolled back in its entirety: the committed state is
exactly the initial state — no per-line isolation, no forward progress on
other lines. -/
theorem c9_rollback_amended (fails : String × String → Bool) (env : Env)
    (now : String) (rands : List Nat) (ls : List StockUnit)
    (os : List OrderLine)
    (h : run_pick_allocation_exc fails env now rands ls os = .error ()) :
    mainPicksCommit fails env now rands ls os = (ls, os, rands) := by
  simp [mainPicksCommit, h]

/-- C9 witness: the failing two-line scenario commits the initial state. -/
theorem c9_witness :
    mainPicksCommit failsBC1 envEmpty "T2" [] [] osTwoLines =
      ([], osTwoLines, []) :=
  c9_rollback_amended failsBC1 envEmpty "T2" [] [] osTwoLines (by rfl)

/-- C10: a line with any nonzero allocation counter fails the engine's
selection predicate (which also requires `batch ≠ -1` and
`ordertype ∉ {3, 5}`), and every later run — under any environment, clock
and random draws — leaves some counter nonzero at that position, so the line
is never selected by the engine again: a partially allocated line is never
automatically topped up. -/
theorem c10_at_most_once (ls : List StockUnit) (os : List OrderLine)
    (i : Nat) (l : OrderLine) (hl : os[i]? = some l)
    (hcz : allCountersZero l = false) :
    selPred l = false ∧
    ∀ rs : List (Env × String × List Nat),
      ∃ l', ((runSeq rs (ls, os)).2)[i]? = some l' ∧
        allCountersZero l' = false ∧ selPred l' = false := by
  refine ⟨selPred_false_of_counters hcz, fun rs => ?_⟩
  obtain ⟨l', hl', hf'⟩ := runSeq_keeps_false rs (ls, os) i l hl hcz
  exact ⟨l', hl', hf', selPred_false_of_counters hf'⟩

/-- C10 witness: a line carrying `amz = 2` is rejected by the selection
predicate. -/
theorem c10_witness :
    selPred { mkLine "BC1" "X" (some 1) with amz := some 2 } = false :=
  (c10_at_most_once [] [{ mkLine "BC1" "X" (some 1) with amz := some 2 }] 0
    { mkLine "BC1" "X" (some 1) with amz := some 2 } (by decide) (by decide)).1

/-- C3 counterexample: the order needs 2 of sku X, the local tier provides
only 1 (one qty-1 unit), and the marketplace holds 5 — yet the engine ends
the line with `localstock = 1` and `amz` still `NULL`: remaining need is not
offered to the marketplace tier when the local tier was nonempty, so a tier
with available supply is skipped. -/
theorem c3_counterexample :
    amzAvail envAmzX "X" = 5 ∧
    (((run_pick_allocation envAmzX "T1" [] lsPartial osPartial).2.1)[0]?).map
      (fun l => (l.localstock, l.amz, l.ukd, l.othersupplier)) =
      some (some 1, none, some 0, none) :=
  ⟨by decide, by decide⟩

/-- C3 amended: fallback tiers are consulted only when the availability
query returns no row at the start of the line (a partially covering local
tier ends the line with no fallback counter touched); when the local tier is
empty: if the marketplace aggregate is positive the line gets
`amz = min(needed, aggregate)` and the chain stops there; if the marketplace
aggregate is zero and the designated supplier lower-cases to "ukd", the line
gets `ukd = min(needed, ukd stock)` when that stock is positive and
`ukd = needed` (marked for ordering) otherwise; in every other case
(non-UKD or unknown supplier) the line gets `othersupplier = needed`. -/
theorem c3_fallback_tiers_amended (env : Env) (now : String)
    (ls : List StockUnit) (os : List OrderLine) (rands : List Nat)
    (order sku : String) (q : Int) (hq : 1 ≤ q)
    (hlt : (alreadyAllocatedCount ls sku order : Int) < q) :
    (availablePicks sku ls ≠ [] →
      ∀ i : Nat, (((processOrder env now (ls, os, rands) (order, sku, some q)).2.1)[i]?).map
        fallbackView = (os[i]?).map fallbackView) ∧
    (availablePicks sku ls = [] → 0 < amzAvail env sku →
      (processOrder env now (ls, os, rands) (order, sku, some q)).2.1 =
        updateLine (order, sku) (fun l => { l with amz := some (min (q - (alreadyAllocatedCount ls sku order : Int)) (amzAvail env sku)) }) os) ∧
    (availablePicks sku ls = [] → amzAvail env sku ≤ 0 →
      ∀ sup, supplierOf env sku = some sup → lowerStr sup = "ukd" →
      (0 < ukdAvail env sku →
        (processOrder env now (ls, os, rands) (order, sku, some q)).2.1 =
          updateLine (order, sku) (fun l => { l with ukd := some (min (q - (alreadyAllocatedCount ls sku order : Int)) (ukdAvail env sku)) }) os) ∧
      (ukdAvail env sku ≤ 0 →
        (processOrder env now (ls, os, rands) (order, sku, some q)).2.1 =
          updateLine (order, sku) (fun l => { l with ukd := some (q - (alreadyAllocatedCount ls sku order : Int)) }) os)) ∧
    (availablePicks sku ls = [] → amzAvail env sku ≤ 0 →
      (∀ sup, supplierOf env sku = some sup → lowerStr sup ≠ "ukd") →
      (processOrder env now (ls, os, rands) (order, sku, some q)).2.1 =
        updateLine (order, sku) (fun l => { l with othersupplier := some (q - (alreadyAllocatedCount ls sku order : Int)) }) os) := by
  have hq0 : ¬ (q ≤ 0) := by omega
  have hge : ¬ ((alreadyAllocatedCount ls sku order : Int) ≥ q) := by omega
  refine ⟨?_, ?_, ?_, ?_⟩
  · intro hne i
    have hbool : ¬ ((availablePicks sku ls).isEmpty = true) := fun h =>
      hne (List.isEmpty_iff.mp h)
    simp only [processOrder]
    rw [if_neg hq0, if_neg hge, if_neg hbool]
    split
    · apply updateLine_pointwise_eq
      intro l
      rfl
    · rfl
  · intro hnil hamz
    have hbool : (availablePicks sku ls).isEmpty = true := by
      rw [hnil]
      rfl
    simp only [processOrder]
    rw [if_neg hq0, if_neg hge, if_pos hbool, if_pos hamz]
  · intro hnil hamzle sup hsup hlow
    have hbool : (availablePicks sku ls).isEmpty = true := by
      rw [hnil]
      rfl
    have hamz' : ¬ (amzAvail env sku > 0) := by omega
    have hlowb : (lowerStr sup == "ukd") = true := by simp [hlow]
    constructor
    · intro hukd
      simp only [processOrder]
      rw [if_neg hq0, if_neg hge, if_pos hbool, if_neg hamz']
      simp only [hsup]
      rw [if_pos hlowb, if_pos hukd]
    · intro hukdle
      have hukd' : ¬ (ukdAvail env sku > 0) := by omega
      simp only [processOrder]
      rw [if_neg hq0, if_neg hge, if_pos hbool, if_neg hamz']
      simp only [hsup]
      rw [if_pos hlowb, if_neg hukd']
  · intro hnil hamzle hns
    have hbool : (availablePicks sku ls).isEmpty = true := by
      rw [hnil]
      rfl
    have hamz' : ¬ (amzAvail env sku > 0) := by omega
    cases hsup : supplierOf env sku with
    | none =>
      simp only [processOrder]
      rw [if_neg hq0, if_neg hge, if_pos hbool, if_neg hamz']
      simp only [hsup]
    | some sup =>
      have hlowb : ¬ ((lowerStr sup == "ukd") = true) := by
        intro hb
        exact hns sup hsup (by simpa using hb)
      simp only [processOrder]
      rw [if_neg hq0, if_neg hge, if_pos hbool, if_neg hamz']
      simp only [hsup]
      rw [if_neg hlowb]

/-- C3 witness: with no local stock and marketplace aggregate 5, a line
needing one unit receives the marketplace allocation. -/
theorem c3_witness :
    (processOrder envAmzX "T1" ([], osAmzOnly, []) ("BC1", "X", some 1)).2.1 =
      updateLine ("BC1", "X") (fun l => { l with amz := some (min (1 - (alreadyAllocatedCount [] "X" "BC1" : Int)) (amzAvail envAmzX "X")) }) osAmzOnly :=
  (c3_fallback_tiers_amended envAmzX "T1" [] osAmzOnly [] "BC1" "X" 1
    (by decide) (by decide)).2.1 rfl (by decide)

/-- C7 counterexample: a line allocated entirely from the marketplace tier
(`amz = 1`) keeps its empty fulfillment timestamp — the `amz` update writes
no `orderdate` — contradicting the claim that any allocation sets the
fulfillment timestamp. -/
theorem c7_counterexample :
    (run_pick_allocation envAmzX "T1" [] [] osAmzOnly).2.1 =
      [{ mkLine "BC1" "X" (some 1) with amz := some 1 }] ∧
    ¬ ((((run_pick_allocation envAmzX "T1" [] [] osAmzOnly).2.1)[0]?).map
      (fun l => l.orderdate) = some "T1") :=
  ⟨by decide, by decide⟩

/-- C7 amended: the fulfillment timestamp (`orderdate`) is written only on
the local paths: fallback allocations (marketplace, secondary warehouse,
unresolved marking) leave every line's `orderdate` unchanged, while a line
with local picks available — or one already fully covered by existing
picks — gets `orderdate = now` on its key rows. -/
theorem c7_orderdate_amended (env : Env) (now : String) (ls : List StockUnit)
    (os : List OrderLine) (rands : List Nat) (order sku : String) (q : Int)
    (hq : 1 ≤ q) :
    ((alreadyAllocatedCount ls sku order : Int) < q →
      availablePicks sku ls = [] →
      ∀ i : Nat, (((processOrder env now (ls, os, rands) (order, sku, some q)).2.1)[i]?).map
        (fun l => l.orderdate) = (os[i]?).map (fun l => l.orderdate)) ∧
    ((alreadyAllocatedCount ls sku order : Int) < q →
      availablePicks sku ls ≠ [] →
      ∀ (i : Nat) (l : OrderLine), os[i]? = some l → l.ordernum = order → l.shopifysku = sku →
      (((processOrder env now (ls, os, rands) (order, sku, some q)).2.1)[i]?).map
        (fun l => l.orderdate) = some now) ∧
    ((alreadyAllocatedCount ls sku order : Int) ≥ q →
      ∀ (i : Nat) (l : OrderLine), os[i]? = some l → l.ordernum = order → l.shopifysku = sku →
      (((processOrder env now (ls, os, rands) (order, sku, some q)).2.1)[i]?).map
        (fun l => l.orderdate) = some now) := by
  have hq0 : ¬ (q ≤ 0) := by omega
  refine ⟨?_, ?_, ?_⟩
  · intro hlt hnil i
    have hge : ¬ ((alreadyAllocatedCount ls sku order : Int) ≥ q) := by omega
    have hbool : (availablePicks sku ls).isEmpty = true := by
      rw [hnil]
      rfl
    simp only [processOrder]
    rw [if_neg hq0, if_neg hge, if_pos hbool]
    split
    · apply updateLine_pointwise_eq
      intro l
      rfl
    · split
      · split
        · split
          · apply updateLine_pointwise_eq
            intro l
            rfl
          · apply updateLine_pointwise_eq
            intro l
            rfl
        · apply updateLine_pointwise_eq
          intro l
          rfl
      · apply updateLine_pointwise_eq
        intro l
        rfl
  · intro hlt hne i l hl hk1 hk2
    have hge : ¬ ((alreadyAllocatedCount ls sku order : Int) ≥ q) := by omega
    have hbool : ¬ ((availablePicks sku ls).isEmpty = true) := fun h =>
      hne (List.isEmpty_iff.mp h)
    simp only [processOrder]
    rw [if_neg hq0, if_neg hge, if_neg hbool]
    split
    · next hk =>
      dsimp only
      rw [updateLine_key_some (order, sku) _ os i l hl hk1 hk2]
      rfl
    · next hk =>
      exfalso
      exact hk (allocLoop_toNat_pos order sku ls rands (by omega) hne)
  · intro hge2 i l hl hk1 hk2
    simp only [processOrder]
    rw [if_neg hq0, if_pos hge2]
    dsimp only
    rw [updateLine_key_some (order, sku) _ os i l hl hk1 hk2]
    rfl

/-- C7 witness: a line with a local pick available gets its fulfillment
timestamp set. -/
theorem c7_witness :
    (((processOrder envEmpty "T1" (lsPartial, osPartial, [])
      ("BC1", "X", some 2)).2.1)[0]?).map (fun l => l.orderdate) = some "T1" :=
  (c7_orderdate_amended envEmpty "T1" lsPartial osPartial [] "BC1" "X" 2
    (by decide)).2.1 (by decide) (by decide) 0 (mkLine "BC1" "X" (some 2))
    (by decide) rfl rfl

end UpdateOrders2
